import Mathlib

/- Shallow embedding of `src/data_ingest.py` from the nwl-trading-agent
repository: endpoint building, payload normalization, QA (sort / dedupe /
gap scan), the parquet cache round-trip and row replay.  Timestamps are
modelled as nanoseconds since the epoch (`Option Int`, `none` = NaT), price
and volume cells as `Option Rat` (`none` = NaN/None), and fallible Python
code as `Option` / `Except`. -/

set_option maxRecDepth 8000

/-- Models Python `str.upper()` (per-character uppercasing). -/
def pyUpper (s : String) : String := ⟨s.data.map Char.toUpper⟩

/-- Models `s.endswith("m")`: the last character is `m`. -/
def endsWithM (s : String) : Bool := s.data.getLast? == some 'm'

/-- Models `s.replace("m", "")`: every `m` character is deleted. -/
def stripM (s : String) : String := ⟨s.data.filter (fun c => c != 'm')⟩

/-- Value of a digit run, used by the model of Python `int(...)`. -/
def digitsVal (l : List Char) : Nat := l.foldl (fun a c => 10 * a + (c.toNat - 48)) 0

/-- Models Python `int(s)` on a string: strip surrounding whitespace, allow one
leading sign, then require a nonempty run of digits; `none` models the raised
`ValueError`.  (Python's underscore digit grouping is not modelled.) -/
def pyInt? (s : String) : Option Int :=
  let t := ((s.data.dropWhile Char.isWhitespace).reverse.dropWhile Char.isWhitespace).reverse
  match t with
  | [] => none
  | '+' :: ds => if ds ≠ [] ∧ ds.all Char.isDigit then some (digitsVal ds) else none
  | '-' :: ds => if ds ≠ [] ∧ ds.all Char.isDigit then some (-(digitsVal ds : Int)) else none
  | ds => if ds.all Char.isDigit then some (digitsVal ds) else none

/-- Models the frozen dataclass `HistoryRequest`; the two instants are carried
as the epoch milliseconds that `int(dt.timestamp() * 1000)` produces. -/
structure HistoryRequest where
  symbol : String
  interval : String
  startMs : Int
  endMs : Int
deriving DecidableEq

/-- The parameter mapping emitted by `build_history_endpoint`. -/
structure Params where
  symbol : String
  frequencyType : String
  frequency : Int
  startDate : Int
  endDate : Int
  needExtendedHoursData : String
deriving DecidableEq

def mkParams (req : HistoryRequest) (ft : String) (k : Int) : Params :=
  ⟨pyUpper req.symbol, ft, k, req.startMs, req.endMs, "false"⟩

def historyEndpoint : String := "marketdata/v1/pricehistory"

/-- Models `build_history_endpoint`; `none` models the `ValueError` raised by
`int(req.interval.replace("m", ""))` when the interval ends in `m` but the
`m`-stripped text is not an integer literal.  The `"60m"` test in the second
branch is kept from the source even though the first branch already captures
`"60m"`. -/
def build_history_endpoint (req : HistoryRequest) : Option (String × Params) :=
  if endsWithM req.interval then
    match pyInt? (stripM req.interval) with
    | some k => some (historyEndpoint, mkParams req "minute" k)
    | none => none
  else if req.interval = "60m" ∨ req.interval = "1h" then
    some (historyEndpoint, mkParams req "minute" 60)
  else some (historyEndpoint, mkParams req "daily" 1)

/-- Stated from the amended mapping claim, to be compared with
`build_history_endpoint`: an `m`-suffixed interval other than `"60m"` uses the
integer read from its `m`-stripped text (failing when that text is not an
integer literal), `"60m"` and `"1h"` map to minute frequency 60, and every
other interval takes the daily default. -/
def specIntervalMapping (req : HistoryRequest) : Option (String × Params) :=
  if endsWithM req.interval = true ∧ req.interval ≠ "60m" then
    match pyInt? (stripM req.interval) with
    | some k => some (historyEndpoint, mkParams req "minute" k)
    | none => none
  else if req.interval = "60m" ∨ req.interval = "1h" then
    some (historyEndpoint, mkParams req "minute" 60)
  else some (historyEndpoint, mkParams req "daily" 1)

/-- Column dtypes of the canonical frame; only the five numeric columns are
tracked (`ts` is always datetime64 on the paths the claims exercise). -/
inductive Dtype where
  | float64
  | int64
  | obj
deriving DecidableEq

/-- One canonical bar row: `ts` in nanoseconds (`none` = NaT), cells as
rationals (`none` = NaN / missing). -/
structure Row where
  ts : Option Int
  open' : Option Rat
  high : Option Rat
  low : Option Rat
  close : Option Rat
  volume : Option Rat
deriving DecidableEq

structure Dtypes where
  open' : Dtype
  high : Dtype
  low : Dtype
  close : Dtype
  volume : Dtype
deriving DecidableEq

/-- A canonical table: ordered rows plus the pandas dtypes of the five numeric
columns (frame equality, like `DataFrame.equals`, compares both). -/
structure Frame where
  rows : List Row
  dtypes : Dtypes
deriving DecidableEq

/-- A JSON scalar inside one candle observation. -/
inductive CVal where
  | int : Int → CVal
  | flt : Rat → CVal
  | null : CVal
deriving DecidableEq

/-- One observation: a JSON object given as key/value pairs. -/
abbrev Candle := List (String × CVal)

/-- A JSON value sitting under a payload key. -/
inductive JVal where
  | list : List Candle → JVal
  | str : String → JVal
  | num : Rat → JVal
  | boolean : Bool → JVal
  | null : JVal
deriving DecidableEq

/-- The JSON payload mapping handed to `parse_history_payload`. -/
abbrev Payload := List (String × JVal)

/-- Python truthiness of a payload value. -/
def jTruthy : JVal → Bool
  | .list l => !l.isEmpty
  | .str s => s != ""
  | .num q => q != 0
  | .boolean b => b
  | .null => false

/-- Models `payload.get(k)`. -/
def pget (p : Payload) (k : String) : Option JVal :=
  (p.find? (fun kv => kv.1 == k)).map (·.2)

/-- Models `payload.get("candles") or payload.get("data") or []`. -/
def locateCandles (p : Payload) : JVal :=
  let c := (pget p "candles").getD .null
  if jTruthy c then c
  else
    let d := (pget p "data").getD .null
    if jTruthy d then d else .list []

/-- The two exceptions `parse_history_payload` can raise: the explicit
`ValueError` for a truthy non-list observation value, and the `KeyError` from
`df[ts_col]` when neither timestamp column exists. -/
inductive PErr where
  | malformed
  | keyError
deriving DecidableEq

/-- Models `candle.get(k)` field access on one observation. -/
def cget (c : Candle) (k : String) : Option CVal :=
  (c.find? (fun kv => kv.1 == k)).map (·.2)

/-- Whether column `k` exists in `pd.DataFrame(cs)` (some observation has it). -/
def hasField (cs : List Candle) (k : String) : Bool :=
  cs.any (fun c => (cget c k).isSome)

/-- One cell of `pd.to_datetime(df[k], unit="ms", utc=True, errors="coerce")`:
a number is milliseconds since the epoch, anything else coerces to NaT. -/
def tsCell (c : Candle) (k : String) : Option Int :=
  match cget c k with
  | some (.int n) => some (n * 1000000)
  | some (.flt q) => some (q * 1000000).floor
  | _ => none

def numCell : CVal → Option Rat
  | .int n => some (n : Rat)
  | .flt q => some q
  | .null => none

/-- One cell of `df.get(k)`: the whole column is missing (`none`) when no
observation carries the key; otherwise absent entries are NaN. -/
def colCell (cs : List Candle) (k : String) (c : Candle) : Option Rat :=
  if hasField cs k then (cget c k).bind numCell else none

/-- Dtype pandas infers for column `k` as used by `parse_history_payload`:
all-integer columns are int64, numeric columns with floats or holes are
float64, and a column that `df.get` filled with `None` is object. -/
def colDtype (cs : List Candle) (k : String) : Dtype :=
  if hasField cs k then
    if cs.all (fun c => match cget c k with | some (.int _) => true | _ => false)
    then .int64 else .float64
  else .obj

/-- The zero-row frame `pd.DataFrame(columns=["ts", ..., "volume"])` (all
columns obj dtype), also what `load_parquet` returns for a missing file. -/
def emptyFrame : Frame := ⟨[], ⟨.obj, .obj, .obj, .obj, .obj⟩⟩

/-- Models `parse_history_payload`. -/
def parse_history_payload (p : Payload) : Except PErr Frame :=
  match locateCandles p with
  | .list cs =>
    if cs.isEmpty || cs.all (fun c => c.isEmpty) then .ok emptyFrame
    else
      let tsCol := if hasField cs "datetime" then "datetime" else "time"
      if hasField cs tsCol then
        let volCol := if hasField cs "volume" then "volume" else "vol"
        .ok ⟨cs.map (fun c =>
               ⟨tsCell c tsCol, colCell cs "open" c, colCell cs "high" c,
                colCell cs "low" c, colCell cs "close" c, colCell cs volCol c⟩),
             ⟨colDtype cs "open", colDtype cs "high", colDtype cs "low",
              colDtype cs "close", colDtype cs volCol⟩⟩
      else .error .keyError
  | _ => .error .malformed

/-- Sort key of a row; only used after NaT rows are dropped. -/
def ts_key (r : Row) : Int := r.ts.getD 0

/-- Models `df.dropna(subset=["ts"])`. -/
def dropNaTs (rows : List Row) : List Row := rows.filter (fun r => r.ts.isSome)

/-- One insertion step of the ascending insertion sort on `ts`. -/
def insertRow (r : Row) : List Row → List Row
  | [] => [r]
  | x :: xs => if ts_key r ≤ ts_key x then r :: x :: xs else x :: insertRow r xs

/-- Models `df.sort_values("ts")` by one particular `ts`-ordered permutation
(an insertion sort).  pandas sorts with its default `kind="quicksort"`, which
is not stable, so the program fixes no particular order among rows with equal
timestamps; the theorems below therefore rely only on the ordering and the
membership of the result, never on how ties are arranged. -/
def sortRows (rows : List Row) : List Row := rows.foldr insertRow []

/-- Models `drop_duplicates(subset=["ts"], keep="last")`: a row survives iff no
later row carries the same `ts`. -/
def dedupLastTs : List Row → List Row
  | [] => []
  | r :: rest =>
    if rest.any (fun x => x.ts == r.ts) then dedupLastTs rest
    else r :: dedupLastTs rest

def deltasAux (prev : Row) : List Row → List Int
  | [] => []
  | x :: xs => (ts_key x - ts_key prev).fdiv 1000000000 :: deltasAux x xs

/-- Models `(df["ts"].astype("int64").diff() // 1_000_000_000).fillna(0)`:
successive timestamp deltas in whole seconds, 0 in front for the first row. -/
def deltasSeconds : List Row → List Int
  | [] => []
  | r :: rest => 0 :: deltasAux r rest

/-- Models `df.loc[deltas.gt(step * 1.5), "ts"]`; for integer deltas the float
comparison `delta > step * 1.5` is exactly `2 * delta > 3 * step`. -/
def detectGaps (rows : List Row) (step : Int) : List (Option Int) :=
  ((rows.zip (deltasSeconds rows)).filter (fun pr => 3 * step < 2 * pr.2)).map
    (fun pr => pr.1.ts)

/-- The `_INTERVAL_SECONDS` dictionary. -/
def intervalTable : List (String × Int) :=
  [("1m", 60), ("5m", 300), ("15m", 900), ("30m", 1800),
   ("60m", 3600), ("1h", 3600), ("1d", 86400), ("day", 86400)]

/-- Models `_INTERVAL_SECONDS.get(interval)`. -/
def intervalSeconds (i : String) : Option Int :=
  (intervalTable.find? (fun kv => kv.1 == i)).map (·.2)

/-- Models `_basic_qa`.  The first component is the returned table; the second
is the list of gap timestamps feeding the `print` side channel (the source
prints the first of them when it is nonempty). -/
def basic_qa (f : Frame) (interval : String) : Frame × List (Option Int) :=
  if f.rows.isEmpty then (f, [])
  else
    let cleaned := dedupLastTs (sortRows (dropNaTs f.rows))
    let gaps :=
      match intervalSeconds interval with
      | some step => if 2 < cleaned.length then detectGaps cleaned step else []
      | none => []
    ({ f with rows := cleaned }, gaps)

/-- The table part of `_basic_qa` alone (drop NaT, sort, dedupe; no gap scan),
used to state that gap detection never changes the returned table. -/
def qaTable (f : Frame) : Frame :=
  if f.rows.isEmpty then f
  else { f with rows := dedupLastTs (sortRows (dropNaTs f.rows)) }

/-- Models Python `int(x)` on a finite float: truncation toward zero. -/
def ratTrunc (q : Rat) : Int := q.num.tdiv q.den

/-- The dtypes that `save_parquet` coerces toward. -/
def canonicalDtypes : Dtypes := ⟨.float64, .float64, .float64, .float64, .int64⟩

/-- Models `df.astype({OHLC: float64, volume: int64}, errors="ignore")`: the
numeric price columns always cast to float64 with values unchanged; the
volume column casts to int64 (truncating each value) unless it is already
int64 or it contains a missing value, in which case the failed cast is
swallowed and the column is left as it was. -/
def coerceSave (f : Frame) : Frame :=
  let volCastable := f.dtypes.volume != .int64 && f.rows.all (fun r => r.volume.isSome)
  ⟨f.rows.map (fun r =>
      if volCastable then
        { r with volume := r.volume.map (fun q => ((ratTrunc q : Int) : Rat)) }
      else r),
   ⟨.float64, .float64, .float64, .float64,
    if f.dtypes.volume == .int64 || volCastable then .int64 else f.dtypes.volume⟩⟩

/-- A filesystem path as its list of components. -/
abbrev PathM := List (List Char)

/-- The cache directory state: which frame (if any) each path stores. -/
abbrev FS := PathM → Option Frame

/-- Models `save_parquet`: an empty table is skipped (no write); otherwise the
dtype-coerced table is written at `path` (the parquet format is modelled as
storing the written frame exactly). -/
def save_parquet (fs : FS) (f : Frame) (path : PathM) : FS :=
  if f.rows.isEmpty then fs
  else fun q => if q = path then some (coerceSave f) else fs q

/-- Models `load_parquet`: a missing file yields the empty canonical frame. -/
def load_parquet (fs : FS) (path : PathM) : Frame := (fs path).getD emptyFrame

/-- A `datetime.date` value. -/
structure PyDate where
  year : Nat
  month : Nat
  day : Nat
deriving DecidableEq

/-- The field ranges `datetime.date` guarantees. -/
def PyDate.Valid (d : PyDate) : Prop :=
  1 ≤ d.year ∧ d.year ≤ 9999 ∧ 1 ≤ d.month ∧ d.month ≤ 12 ∧ 1 ≤ d.day ∧ d.day ≤ 31

instance (d : PyDate) : Decidable d.Valid := by unfold PyDate.Valid; infer_instance

/-- The last `k` decimal digits of `n`, zero padded to width `k`. -/
def pad : Nat → Nat → List Char
  | 0, _ => []
  | k + 1, n => pad k (n / 10) ++ [Nat.digitChar (n % 10)]

/-- Models `str(date)`: zero-padded ISO `YYYY-MM-DD`. -/
def isoDate (d : PyDate) : List Char :=
  pad 4 d.year ++ '-' :: pad 2 d.month ++ '-' :: pad 2 d.day

/-- The resolved `DATA_ROOT` constant, as one fixed path prefix. -/
def dataRootM : PathM := ["data".data]

/-- Models the f-string file name built by `cache_path`. -/
def cacheFileName (symbol interval : String) (s e : PyDate) : List Char :=
  (pyUpper symbol).data ++ '_' :: interval.data ++ '_' :: isoDate s
    ++ '_' :: isoDate e ++ ".parquet".data

/-- Models the value returned by `cache_path`, as the component list
`DATA_ROOT / SYMBOL / interval / name`.  The `mkdir` side effect does not
touch the returned value.  A `/` inside a component would be re-split by
`pathlib`; the path theorems below therefore assume slash-free symbols and
intervals. -/
def cache_path (symbol interval : String) (s e : PyDate) : PathM :=
  dataRootM ++ [(pyUpper symbol).data, interval.data, cacheFileName symbol interval s e]

/-- One record yielded by `replay_rows`. -/
structure ReplayRow where
  ts : Option Int
  open' : Option Rat
  high : Option Rat
  low : Option Rat
  close : Option Rat
  volume : Int
deriving DecidableEq

def defaultRow : Row := ⟨none, none, none, none, none, none⟩

def defaultReplayRow : ReplayRow := ⟨none, none, none, none, none, 0⟩

/-- Models `float(cell)` on one price cell of a column with dtype `dt`: a
number keeps its value; a missing cell is NaN in a numeric column, so
`float(nan)` passes NaN through, but in an object column it is Python `None`
and `float(None)` raises `TypeError` (modelled as `none`). -/
def floatCell (dt : Dtype) (x : Option Rat) : Option (Option Rat) :=
  match x with
  | some q => some (some q)
  | none => if dt = .obj then none else some none

/-- Models the dict built for one row of `replay_rows`: the four `float(...)`
coercions (fallible on object-dtype `None` cells), `int(row.volume)`
truncating with a null volume becoming 0. -/
def replayRow (dts : Dtypes) (r : Row) : Option ReplayRow :=
  match floatCell dts.open' r.open', floatCell dts.high r.high,
        floatCell dts.low r.low, floatCell dts.close r.close with
  | some o, some h, some l, some c =>
    some ⟨r.ts, o, h, l, c,
      match r.volume with
      | some q => ratTrunc q
      | none => 0⟩
  | _, _, _, _ => none

def replayList (dts : Dtypes) : List Row → Option (List ReplayRow)
  | [] => some []
  | r :: rest =>
    match replayRow dts r with
    | none => none
    | some rr =>
      match replayList dts rest with
      | none => none
      | some rs => some (rr :: rs)

/-- Models the full consumption of the `replay_rows` generator: one record per
row in order, or `none` when iteration raises `TypeError` from `float(None)`
on an object-dtype price cell. -/
def replay_rows (f : Frame) : Option (List ReplayRow) :=
  replayList f.dtypes f.rows

/-- Concrete table whose volume column carries float64 dtype (a shape the
parser produces whenever the provider sends a float volume). -/
def volFloatFrame : Frame :=
  ⟨[⟨some 0, some 1, some 1, some 1, some 1, some 2⟩],
   ⟨.float64, .float64, .float64, .float64, .float64⟩⟩

def pDemo : PathM := [['p']]

/-- Concrete table already carrying the canonical dtypes. -/
def canonFrame : Frame :=
  ⟨[⟨some 0, some 1, some 1, some 1, some 1, some 2⟩], canonicalDtypes⟩

/-- Concrete table with a negative source volume. -/
def negVolFrame : Frame :=
  ⟨[⟨some 0, some 1, some 1, some 1, some 1, some (-1)⟩], canonicalDtypes⟩

/-- Three-row table with a null volume in the middle row. -/
def replayDemoFrame : Frame :=
  ⟨[⟨some 0, some 1, some 2, some 1, some 2, some 10⟩,
    ⟨some 1000000000, some 1, some 2, some 1, some 2, none⟩,
    ⟨some 2000000000, some 1, some 2, some 1, some 2, some 5⟩], canonicalDtypes⟩

/-- The record list `replay_rows` yields for `replayDemoFrame`. -/
def replayDemoOut : List ReplayRow :=
  [⟨some 0, some 1, some 2, some 1, some 2, 10⟩,
   ⟨some 1000000000, some 1, some 2, some 1, some 2, 0⟩,
   ⟨some 2000000000, some 1, some 2, some 1, some 2, 5⟩]

def reqBadM : HistoryRequest := ⟨"NWL", "m", 0, 0⟩

def reqXm : HistoryRequest := ⟨"NWL", "xm", 0, 0⟩

def reqMulM : HistoryRequest := ⟨"NWL", "3m0m", 0, 0⟩

/-- Payload carrying neither a `candles` nor a `data` key. -/
def noKeysPayload : Payload := [("foo", JVal.num 1)]

def nullKeyPayload : Payload := [("x", JVal.null)]

/-- Observation with prices and volume but no `datetime` and no `time` field. -/
def noTsCandle : Candle :=
  [("open", CVal.int 1), ("high", CVal.int 2), ("low", CVal.int 1),
   ("close", CVal.int 2), ("volume", CVal.int 100)]

def noTsPayload : Payload := [("candles", JVal.list [noTsCandle])]

/-- The spec's gap example: timestamps T, T+60s, T+600s at interval 1m. -/
def gapFrame : Frame :=
  ⟨[⟨some 0, some 1, some 1, some 1, some 1, some 1⟩,
    ⟨some 60000000000, some 1, some 1, some 1, some 1, some 1⟩,
    ⟨some 660000000000, some 1, some 1, some 1, some 1, some 1⟩], canonicalDtypes⟩

theorem mem_insertRow {x r : Row} {l : List Row} :
    x ∈ insertRow r l ↔ x = r ∨ x ∈ l := by
  induction l with
  | nil => simp [insertRow]
  | cons a as ih =>
    simp only [insertRow]
    split
    · simp [List.mem_cons]
    · simp only [List.mem_cons, ih]
      tauto

theorem sorted_insertRow {r : Row} {l : List Row}
    (h : l.Pairwise (fun a b => ts_key a ≤ ts_key b)) :
    (insertRow r l).Pairwise (fun a b => ts_key a ≤ ts_key b) := by
  induction l with
  | nil => simp [insertRow]
  | cons a as ih =>
    rcases List.pairwise_cons.mp h with ⟨ha, has⟩
    simp only [insertRow]
    by_cases hk : ts_key r ≤ ts_key a
    · rw [if_pos hk]
      refine List.pairwise_cons.mpr ⟨?_, h⟩
      intro x hx
      rcases List.mem_cons.mp hx with rfl | hx
      · exact hk
      · exact le_trans hk (ha x hx)
    · rw [if_neg hk]
      refine List.pairwise_cons.mpr ⟨?_, ih has⟩
      intro x hx
      rcases mem_insertRow.mp hx with rfl | hx
      · exact le_of_not_le hk
      · exact ha x hx

theorem sortRows_cons (a : Row) (l : List Row) :
    sortRows (a :: l) = insertRow a (sortRows l) := rfl

theorem sorted_sortRows (l : List Row) :
    (sortRows l).Pairwise (fun a b => ts_key a ≤ ts_key b) := by
  induction l with
  | nil => simp [sortRows]
  | cons a as ih => rw [sortRows_cons]; exact sorted_insertRow ih

theorem mem_sortRows {x : Row} {l : List Row} : x ∈ sortRows l ↔ x ∈ l := by
  induction l with
  | nil => simp [sortRows]
  | cons a as ih =>
    rw [sortRows_cons, mem_insertRow, ih]
    simp [List.mem_cons, eq_comm]

theorem mem_dedupLastTs {x : Row} {l : List Row} (h : x ∈ dedupLastTs l) : x ∈ l := by
  induction l with
  | nil => simp [dedupLastTs] at h
  | cons a as ih =>
    simp only [dedupLastTs] at h
    split at h
    · exact List.mem_cons_of_mem _ (ih h)
    · rcases List.mem_cons.mp h with rfl | h
      · exact List.mem_cons_self _ _
      · exact List.mem_cons_of_mem _ (ih h)

theorem pairwise_lt_dedupLastTs {l : List Row}
    (hs : l.Pairwise (fun a b => ts_key a ≤ ts_key b))
    (hall : ∀ x ∈ l, x.ts.isSome) :
    (dedupLastTs l).Pairwise (fun a b => ts_key a < ts_key b) := by
  induction l with
  | nil => simp [dedupLastTs]
  | cons a as ih =>
    rcases List.pairwise_cons.mp hs with ⟨ha, has⟩
    have hall' : ∀ x ∈ as, x.ts.isSome := fun x hx => hall x (List.mem_cons_of_mem _ hx)
    simp only [dedupLastTs]
    by_cases hdup : as.any (fun x => x.ts == a.ts)
    · rw [if_pos hdup]; exact ih has hall'
    · rw [if_neg hdup]
      refine List.pairwise_cons.mpr ⟨?_, ih has hall'⟩
      intro x hx
      have hxas := mem_dedupLastTs hx
      rcases lt_or_eq_of_le (ha x hxas) with h | h
      · exact h
      · exfalso
        obtain ⟨ka, hka⟩ := Option.isSome_iff_exists.mp (hall a (List.mem_cons_self _ _))
        obtain ⟨kx, hkx⟩ := Option.isSome_iff_exists.mp (hall' x hxas)
        have hts : x.ts = a.ts := by
          simp only [ts_key, hka, hkx, Option.getD_some] at h
          rw [hka, hkx, h]
        exact hdup (List.any_eq_true.mpr ⟨x, hxas, by simp [hts]⟩)

theorem mem_dropNaTs {x : Row} {l : List Row} :
    x ∈ dropNaTs l ↔ x ∈ l ∧ x.ts.isSome := by
  unfold dropNaTs
  simp [List.mem_filter]

theorem qa_rows (f : Frame) (i : String) :
    (basic_qa f i).1.rows
      = if f.rows.isEmpty then f.rows
        else dedupLastTs (sortRows (dropNaTs f.rows)) := by
  by_cases h : f.rows.isEmpty <;> simp [basic_qa, h]

theorem basic_qa_eq_qaTable (f : Frame) (i : String) :
    (basic_qa f i).1 = qaTable f := by
  by_cases h : f.rows.isEmpty <;> simp [basic_qa, qaTable, h]

theorem cleaned_all_isSome (l : List Row) :
    ∀ x ∈ dedupLastTs (sortRows (dropNaTs l)), x.ts.isSome := by
  intro x hx
  exact (mem_dropNaTs.mp (mem_sortRows.mp (mem_dedupLastTs hx))).2

theorem cleaned_pairwise_lt (l : List Row) :
    (dedupLastTs (sortRows (dropNaTs l))).Pairwise (fun a b => ts_key a < ts_key b) :=
  pairwise_lt_dedupLastTs (sorted_sortRows _)
    (fun _ hx => (mem_dropNaTs.mp (mem_sortRows.mp hx)).2)

theorem cleaned_pairwise_ne (l : List Row) :
    (dedupLastTs (sortRows (dropNaTs l))).Pairwise (fun a b => a.ts ≠ b.ts) := by
  have hall := cleaned_all_isSome l
  refine (cleaned_pairwise_lt l).imp_of_mem ?_
  intro a b hma hmb hlt hts
  obtain ⟨ka, hka⟩ := Option.isSome_iff_exists.mp (hall a hma)
  rw [hka] at hts
  rw [show ts_key a = ka by simp [ts_key, hka],
      show ts_key b = ka by simp [ts_key, ← hts]] at hlt
  exact lt_irrefl _ hlt

theorem deltasAux_length (prev : Row) (l : List Row) :
    (deltasAux prev l).length = l.length := by
  induction l generalizing prev with
  | nil => rfl
  | cons a as ih => simp [deltasAux, ih]

theorem deltasSeconds_length (l : List Row) : (deltasSeconds l).length = l.length := by
  cases l with
  | nil => rfl
  | cons a as => simp [deltasSeconds, deltasAux_length]

theorem mem_detectGaps {rows : List Row} {step : Int}
    (hnd : rows.Pairwise (fun a b => a.ts ≠ b.ts)) (j : Nat) (hj : j < rows.length) :
    ((rows.getD j defaultRow).ts ∈ detectGaps rows step ↔
      3 * step < 2 * ((deltasSeconds rows).getD j 0)) := by
  have hdl : (deltasSeconds rows).length = rows.length := deltasSeconds_length rows
  have hjd : j < (deltasSeconds rows).length := by rw [hdl]; exact hj
  have hzl : (rows.zip (deltasSeconds rows)).length = rows.length := by
    simp [List.length_zip, hdl]
  rw [List.getD_eq_getElem?_getD, List.getElem?_eq_getElem hj,
      List.getD_eq_getElem?_getD, List.getElem?_eq_getElem hjd]
  simp only [Option.getD_some]
  constructor
  · intro hmem
    unfold detectGaps at hmem
    obtain ⟨pr, hpr, hts⟩ := List.mem_map.mp hmem
    obtain ⟨hzip, hcond⟩ := List.mem_filter.mp hpr
    obtain ⟨k, hk, hkeq⟩ := List.mem_iff_getElem.mp hzip
    have hk' : k < rows.length := by rw [hzl] at hk; exact hk
    rw [List.getElem_zip] at hkeq
    have hkj : k = j := by
      by_contra hne
      have hts' : rows[k].ts = rows[j].ts := by rw [← hkeq] at hts; exact hts
      rcases Nat.lt_or_ge k j with hlt | hge
      · exact (List.pairwise_iff_getElem.mp hnd k j hk' hj hlt) hts'
      · have hlt : j < k := lt_of_le_of_ne hge (Ne.symm hne)
        exact (List.pairwise_iff_getElem.mp hnd j k hj hk' hlt) hts'.symm
    subst hkj
    rw [← hkeq] at hcond
    simpa using hcond
  · intro hcond
    unfold detectGaps
    refine List.mem_map.mpr ⟨(rows[j], (deltasSeconds rows)[j]), ?_, rfl⟩
    refine List.mem_filter.mpr ⟨?_, by simpa using hcond⟩
    exact List.mem_iff_getElem.mpr ⟨j, by rw [hzl]; exact hj, by rw [List.getElem_zip]⟩

theorem coerceSave_canonical (f : Frame) (hd : f.dtypes = canonicalDtypes) :
    coerceSave f = f := by
  obtain ⟨rows, dts⟩ := f
  simp only [canonicalDtypes] at hd
  subst hd
  unfold coerceSave
  simp

theorem pad_length (k n : Nat) : (pad k n).length = k := by
  induction k generalizing n with
  | zero => rfl
  | succ k ih => simp [pad, ih]

theorem digitChar_fin_inj :
    ∀ a b : Fin 10, Nat.digitChar a = Nat.digitChar b → a = b := by decide

theorem pad_inj : ∀ (k n1 n2 : Nat), n1 < 10 ^ k → n2 < 10 ^ k →
    pad k n1 = pad k n2 → n1 = n2 := by
  intro k
  induction k with
  | zero => intro n1 n2 h1 h2 _; omega
  | succ k ih =>
    intro n1 n2 h1 h2 heq
    simp only [pad] at heq
    obtain ⟨hq, hr⟩ := List.append_inj heq (by rw [pad_length, pad_length])
    have hm : n1 % 10 = n2 % 10 := by
      simp only [List.cons.injEq, and_true] at hr
      have := digitChar_fin_inj ⟨n1 % 10, Nat.mod_lt _ (by norm_num)⟩
        ⟨n2 % 10, Nat.mod_lt _ (by norm_num)⟩ (by simpa using hr)
      simpa using this
    have hd1 : n1 / 10 < 10 ^ k := by
      rw [Nat.div_lt_iff_lt_mul (by norm_num)]
      calc n1 < 10 ^ (k + 1) := h1
        _ = 10 ^ k * 10 := by ring
    have hd2 : n2 / 10 < 10 ^ k := by
      rw [Nat.div_lt_iff_lt_mul (by norm_num)]
      calc n2 < 10 ^ (k + 1) := h2
        _ = 10 ^ k * 10 := by ring
    have := ih (n1 / 10) (n2 / 10) hd1 hd2 hq
    omega

theorem isoDate_length (d : PyDate) : (isoDate d).length = 10 := by
  simp [isoDate, pad_length]

theorem isoDate_inj {d1 d2 : PyDate} (h1 : d1.Valid) (h2 : d2.Valid)
    (heq : isoDate d1 = isoDate d2) : d1 = d2 := by
  obtain ⟨y1, m1, dd1⟩ := d1
  obtain ⟨y2, m2, dd2⟩ := d2
  obtain ⟨hy1a, hy1b, hm1a, hm1b, hd1a, hd1b⟩ := h1
  obtain ⟨hy2a, hy2b, hm2a, hm2b, hd2a, hd2b⟩ := h2
  dsimp only at hy1b hm1b hd1b hy2b hm2b hd2b
  unfold isoDate at heq
  dsimp only at heq
  simp only [List.append_assoc, List.cons_append] at heq
  obtain ⟨hy, rest⟩ := List.append_inj heq (by rw [pad_length, pad_length])
  simp only [List.cons.injEq, true_and] at rest
  obtain ⟨hm, rest2⟩ := List.append_inj rest (by rw [pad_length, pad_length])
  simp only [List.cons.injEq, true_and] at rest2
  have hy' := pad_inj 4 _ _ (by norm_num; omega) (by norm_num; omega) hy
  have hm' := pad_inj 2 _ _ (by norm_num; omega) (by norm_num; omega) hm
  have hd' := pad_inj 2 _ _ (by norm_num; omega) (by norm_num; omega) rest2
  simp only [PyDate.mk.injEq]
  exact ⟨hy', hm', hd'⟩

theorem floatCell_eq {dt : Dtype} {x y : Option Rat} (h : floatCell dt x = some y) :
    y = x := by
  cases x with
  | some q =>
    unfold floatCell at h
    injection h with h
    exact h.symm
  | none =>
    unfold floatCell at h
    by_cases hd : dt = .obj
    · rw [if_pos hd] at h
      exact Option.noConfusion h
    · rw [if_neg hd] at h
      injection h with h
      exact h.symm

theorem replayRow_fields {dts : Dtypes} {r : Row} {rr : ReplayRow}
    (h : replayRow dts r = some rr) :
    rr.ts = r.ts ∧ rr.open' = r.open' ∧ rr.high = r.high ∧ rr.low = r.low ∧
    rr.close = r.close ∧
    rr.volume = (match r.volume with | some q => ratTrunc q | none => 0) := by
  unfold replayRow at h
  cases ho : floatCell dts.open' r.open' with
  | none => rw [ho] at h; exact Option.noConfusion h
  | some o =>
    cases hh : floatCell dts.high r.high with
    | none => rw [ho, hh] at h; exact Option.noConfusion h
    | some hi =>
      cases hl : floatCell dts.low r.low with
      | none => rw [ho, hh, hl] at h; exact Option.noConfusion h
      | some lo =>
        cases hc : floatCell dts.close r.close with
        | none => rw [ho, hh, hl, hc] at h; exact Option.noConfusion h
        | some cl =>
          rw [ho, hh, hl, hc] at h
          injection h with h
          subst h
          exact ⟨rfl, floatCell_eq ho, floatCell_eq hh, floatCell_eq hl,
            floatCell_eq hc, rfl⟩

theorem replayList_spec (dts : Dtypes) {l : List Row} {rs : List ReplayRow}
    (h : replayList dts l = some rs) :
    rs.length = l.length ∧
    ∀ j : Nat, j < l.length →
      replayRow dts (l.getD j defaultRow) = some (rs.getD j defaultReplayRow) := by
  induction l generalizing rs with
  | nil =>
    unfold replayList at h
    injection h with h
    subst h
    exact ⟨rfl, fun j hj => absurd hj (by simp)⟩
  | cons r rest ih =>
    unfold replayList at h
    cases hrr : replayRow dts r with
    | none => rw [hrr] at h; exact Option.noConfusion h
    | some rr =>
      rw [hrr] at h
      cases hrest : replayList dts rest with
      | none => rw [hrest] at h; exact Option.noConfusion h
      | some rs2 =>
        rw [hrest] at h
        injection h with h
        subst h
        obtain ⟨hlen, hpt⟩ := ih hrest
        refine ⟨by simp [hlen], ?_⟩
        intro j hj
        cases j with
        | zero => simpa using hrr
        | succ j =>
          simp only [List.getD_cons_succ]
          exact hpt j (by simpa using hj)

/-- C1, counterexample: a payload carrying neither a `candles` nor a `data`
key does not fail with `MalformedPayload` — `parse_history_payload` returns
the empty canonical table, because the `or []` fallback hands the empty list
to the `isinstance` check. -/
theorem parse_missing_keys_returns_table_cex :
    pget noKeysPayload "candles" = none ∧ pget noKeysPayload "data" = none ∧
    parse_history_payload noKeysPayload = .ok emptyFrame := ⟨rfl, rfl, rfl⟩

/-- C1, amended: for every payload mapping with neither a `candles` nor a
`data` key, `parse_history_payload` returns the empty canonical table rather
than raising; the `MalformedPayload` error is reserved for a truthy non-list
value found under those keys. -/
theorem parse_missing_keys_empty_table (p : Payload)
    (hc : pget p "candles" = none) (hd : pget p "data" = none) :
    parse_history_payload p = .ok emptyFrame := by
  simp [parse_history_payload, locateCandles, hc, hd, jTruthy]

/-- C1, witness for the amended theorem at a concrete payload. -/
theorem parse_missing_keys_empty_table_w :
    parse_history_payload nullKeyPayload = .ok emptyFrame :=
  parse_missing_keys_empty_table nullKeyPayload (by decide) (by decide)

/-- C2, counterexample: a non-empty, already-QA'd table whose volume column
carries float64 dtype (as the parser produces for float volumes) does not
round-trip: `save_parquet` coerces the volume column to int64, so the loaded
table differs from the saved one in its dtypes. -/
theorem save_load_dtype_cex :
    volFloatFrame.rows ≠ [] ∧ (basic_qa volFloatFrame "1m").1 = volFloatFrame ∧
    load_parquet (save_parquet (fun _ => none) volFloatFrame pDemo) pDemo ≠ volFloatFrame := by
  refine ⟨by decide, by decide, by decide⟩

/-- C2, amended: for every non-empty, already-QA'd table whose columns already
carry the canonical dtypes (float64 prices, int64 volume), `load_parquet`
after `save_parquet` returns a table equal to the input, rows and dtypes
(hence column order, types and row order) preserved. -/
theorem save_load_roundtrip_canonical (fs : FS) (f : Frame) (p : PathM) (i : String)
    (hne : f.rows ≠ []) (_hqa : (basic_qa f i).1 = f) (hd : f.dtypes = canonicalDtypes) :
    load_parquet (save_parquet fs f p) p = f := by
  have hemp : f.rows.isEmpty = false := by simpa [List.isEmpty_iff] using hne
  unfold load_parquet save_parquet
  rw [hemp]
  simp [coerceSave_canonical f hd]

/-- C2, witness for the amended round-trip theorem at a concrete table. -/
theorem save_load_roundtrip_canonical_w :
    load_parquet (save_parquet (fun _ => none) canonFrame pDemo) pDemo = canonFrame :=
  save_load_roundtrip_canonical (fun _ => none) canonFrame pDemo "1m"
    (by decide) (by decide) rfl

/-- C4, counterexample: `build_history_endpoint` is not total — the interval
`"m"` ends in `m`, so `int("")` raises `ValueError` (modelled as `none`)
instead of falling through to the daily default. -/
theorem build_endpoint_raises_cex :
    endsWithM reqBadM.interval = true ∧ build_history_endpoint reqBadM = none := by decide

/-- C4, amended: for every request, `build_history_endpoint` either succeeds —
yielding minute frequency-type or the daily default (frequency-type daily,
frequency 1) — or the interval ends in `m` with an `m`-stripped text that is
not an integer literal, in which case it raises (`none`); that parse failure
is its only failure mode. -/
theorem build_endpoint_total_except_bad_m (req : HistoryRequest) :
    (∃ pr, build_history_endpoint req = some pr ∧
      (pr.2.frequencyType = "minute" ∨
        (pr.2.frequencyType = "daily" ∧ pr.2.frequency = 1))) ∨
    (endsWithM req.interval = true ∧ pyInt? (stripM req.interval) = none ∧
      build_history_endpoint req = none) := by
  unfold build_history_endpoint
  by_cases hm : endsWithM req.interval = true
  · rw [if_pos hm]
    cases hp : pyInt? (stripM req.interval) with
    | some k => exact Or.inl ⟨_, rfl, Or.inl rfl⟩
    | none => exact Or.inr ⟨hm, rfl, rfl⟩
  · rw [if_neg hm]
    by_cases h6 : req.interval = "60m" ∨ req.interval = "1h"
    · rw [if_pos h6]; exact Or.inl ⟨_, rfl, Or.inl rfl⟩
    · rw [if_neg h6]; exact Or.inl ⟨_, rfl, Or.inr ⟨rfl, rfl⟩⟩

/-- C5, confirmed: two cache paths are equal exactly when their key tuples
(symbol upper-cased, interval, start date, end date) are equal — so the path
is a deterministic pure function of the key and distinct keys never collide.
Dates are assumed within the ranges `datetime.date` guarantees, and symbol
and interval slash-free (a `/` inside a component would be re-split by
`pathlib`). -/
theorem cache_path_key_iff (s1 i1 : String) (d1 e1 : PyDate) (s2 i2 : String) (d2 e2 : PyDate)
    (hv1 : d1.Valid) (hw1 : e1.Valid) (hv2 : d2.Valid) (hw2 : e2.Valid)
    (_hs1 : '/' ∉ (pyUpper s1).data) (_hi1 : '/' ∉ i1.data)
    (_hs2 : '/' ∉ (pyUpper s2).data) (_hi2 : '/' ∉ i2.data) :
    cache_path s1 i1 d1 e1 = cache_path s2 i2 d2 e2 ↔
      (pyUpper s1, i1, d1, e1) = (pyUpper s2, i2, d2, e2) := by
  constructor
  · intro h
    unfold cache_path cacheFileName at h
    simp only [dataRootM, List.singleton_append, List.nil_append, List.cons.injEq, and_true,
      true_and, List.append_assoc, List.cons_append] at h
    obtain ⟨hA, hB, hC⟩ := h
    have hupper : pyUpper s1 = pyUpper s2 := String.ext hA
    have hii : i1 = i2 := String.ext hB
    rw [hA, hB] at hC
    have hC1 := List.append_cancel_left hC
    simp only [List.cons.injEq, true_and] at hC1
    have hC2 := List.append_cancel_left hC1
    simp only [List.cons.injEq, true_and] at hC2
    obtain ⟨hdd, hC3⟩ := List.append_inj hC2 (by rw [isoDate_length, isoDate_length])
    simp only [List.cons.injEq, true_and] at hC3
    obtain ⟨hee, -⟩ := List.append_inj hC3 (by rw [isoDate_length, isoDate_length])
    have hdeq := isoDate_inj hv1 hv2 hdd
    have heeq := isoDate_inj hw1 hw2 hee
    rw [hupper, hii, hdeq, heeq]
  · intro h
    obtain ⟨h1, h2, h3, h4⟩ : pyUpper s1 = pyUpper s2 ∧ i1 = i2 ∧ d1 = d2 ∧ e1 = e2 := by
      simpa [Prod.ext_iff] using h
    unfold cache_path cacheFileName
    rw [h1, h2, h3, h4]

/-- C5, witness: the same key tuple reached from differently-cased symbols
maps to the same path. -/
theorem cache_path_key_iff_w :
    cache_path "nwl" "30m" ⟨2024, 6, 1⟩ ⟨2024, 7, 1⟩
      = cache_path "NWL" "30m" ⟨2024, 6, 1⟩ ⟨2024, 7, 1⟩ :=
  (cache_path_key_iff "nwl" "30m" ⟨2024, 6, 1⟩ ⟨2024, 7, 1⟩ "NWL" "30m" ⟨2024, 6, 1⟩ ⟨2024, 7, 1⟩
    (by decide) (by decide) (by decide) (by decide)
    (by decide) (by decide) (by decide) (by decide)).mpr (by decide)

/-- C6, confirmed: for every input table, the table returned by the QA filter
has no null `ts`, strictly increasing `ts` values, and no repeated `ts`. -/
theorem qa_invariants (f : Frame) (i : String) :
    ((basic_qa f i).1.rows.all (fun r => r.ts.isSome)) = true ∧
    (basic_qa f i).1.rows.Pairwise (fun a b => ts_key a < ts_key b) ∧
    (basic_qa f i).1.rows.Pairwise (fun a b => a.ts ≠ b.ts) := by
  rw [qa_rows]
  by_cases h : f.rows.isEmpty = true
  · have hnil : f.rows = [] := by simpa using h
    simp [h, hnil]
  · simp only [if_neg h]
    refine ⟨?_, cleaned_pairwise_lt _, cleaned_pairwise_ne _⟩
    rw [List.all_eq_true]
    exact fun x hx => cleaned_all_isSome _ x hx

/-- C7, counterexample: `"xm"` ends in `m` yet raises (`none`) instead of
yielding a minute mapping, and `"3m0m"` yields frequency 30 — the integer of
the `m`-stripped text — not its leading integer 3. -/
theorem interval_mapping_cex :
    build_history_endpoint reqXm = none ∧
    (build_history_endpoint reqMulM).map (fun pr => pr.2.frequency) = some 30 := by decide

/-- C7, amended: `build_history_endpoint` realises exactly the mapping of
`specIntervalMapping` — `m`-suffixed intervals use the integer parsed from the
`m`-stripped text (raising when it is not an integer literal; this equals the
leading integer for a single trailing `m`), `"60m"` and `"1h"` map to minute
frequency 60, and every other interval maps to the daily default. -/
theorem interval_mapping_matches_spec (req : HistoryRequest) :
    build_history_endpoint req = specIntervalMapping req := by
  obtain ⟨sym, itv, sMs, eMs⟩ := req
  unfold build_history_endpoint specIntervalMapping
  dsimp only
  by_cases hm : endsWithM itv = true
  · by_cases h60 : itv = "60m"
    · subst h60; rfl
    · rw [if_pos hm, if_pos ⟨hm, h60⟩]
  · have hc : ¬(endsWithM itv = true ∧ itv ≠ "60m") := fun h => hm h.1
    rw [if_neg hm, if_neg hc]

/-- C8, confirmed: gap detection is report-only — the table `_basic_qa`
returns equals the pure sort/dedupe result whatever the gap scan finds, gaps
are reported only when the interval has a known step and the cleaned table
has more than 2 rows, and a row's timestamp is flagged exactly when its
delta in seconds exceeds 1.5 times the step (`2 * delta > 3 * step`). -/
theorem gap_detection_report_only (f : Frame) (i : String) :
    (basic_qa f i).1 = qaTable f ∧
    ((basic_qa f i).2 ≠ [] →
      (∃ s, intervalSeconds i = some s) ∧ 2 < (qaTable f).rows.length) ∧
    (∀ s : Int, intervalSeconds i = some s → 2 < (qaTable f).rows.length →
      ∀ j : Nat, j < (qaTable f).rows.length →
        (((qaTable f).rows.getD j defaultRow).ts ∈ (basic_qa f i).2 ↔
          3 * s < 2 * ((deltasSeconds (qaTable f).rows).getD j 0))) := by
  refine ⟨basic_qa_eq_qaTable f i, ?_, ?_⟩
  · intro hne
    by_cases hemp : f.rows.isEmpty = true
    · exact absurd (by simp [basic_qa, hemp]) hne
    · cases hstep : intervalSeconds i with
      | none => exact absurd (by simp [basic_qa, hemp, hstep]) hne
      | some s =>
        refine ⟨⟨s, rfl⟩, ?_⟩
        by_cases hlen : 2 < (dedupLastTs (sortRows (dropNaTs f.rows))).length
        · simpa [qaTable, hemp] using hlen
        · exact absurd (by simp [basic_qa, hemp, hstep, hlen]) hne
  · intro s hstep hlen j hj
    by_cases hemp : f.rows.isEmpty = true
    · rw [qaTable, if_pos hemp] at hlen
      have hnil : f.rows = [] := by simpa using hemp
      rw [hnil] at hlen
      simp at hlen
    · have hrows : (qaTable f).rows = dedupLastTs (sortRows (dropNaTs f.rows)) := by
        simp [qaTable, hemp]
      rw [hrows] at hj hlen ⊢
      have hsnd : (basic_qa f i).2
          = detectGaps (dedupLastTs (sortRows (dropNaTs f.rows))) s := by
        simp [basic_qa, hemp, hstep, hlen]
      rw [hsnd]
      exact mem_detectGaps (cleaned_pairwise_ne _) j hj

/-- C8, witness on the spec's gap example (interval 1m, deltas 60s and 600s):
the gap list is nonempty, so the step is known and the table has > 2 rows. -/
theorem gap_detection_report_only_w :
    (∃ s, intervalSeconds "1m" = some s) ∧ 2 < (qaTable gapFrame).rows.length :=
  (gap_detection_report_only gapFrame "1m").2.1 (by decide)

/-- C9, counterexample: a negative source volume is passed through negative by
`replay_rows`, so not every yielded `volume` is a non-negative integer. -/
theorem replay_negative_volume_cex :
    ∃ rr ∈ (replay_rows negVolFrame).getD [], rr.volume < 0 := by decide

/-- C9, amended: whenever the replay completes (no object-dtype `None` price
cell, the case where `float(None)` raises `TypeError` and aborts the
generator), `replay_rows` yields exactly one record per row, in order, with
`ts` and the four float-coerced prices carried over, volume truncated to an
integer, null volume becoming 0, and the yielded volume non-negative whenever
the source volume is non-negative (or null). -/
theorem replay_rows_elementwise (f : Frame) (rs : List ReplayRow)
    (hr : replay_rows f = some rs) (j : Nat) (hj : j < f.rows.length) :
    rs.length = f.rows.length ∧
    (rs.getD j defaultReplayRow).ts = (f.rows.getD j defaultRow).ts ∧
    (rs.getD j defaultReplayRow).open' = (f.rows.getD j defaultRow).open' ∧
    (rs.getD j defaultReplayRow).high = (f.rows.getD j defaultRow).high ∧
    (rs.getD j defaultReplayRow).low = (f.rows.getD j defaultRow).low ∧
    (rs.getD j defaultReplayRow).close = (f.rows.getD j defaultRow).close ∧
    ((f.rows.getD j defaultRow).volume = none →
      (rs.getD j defaultReplayRow).volume = 0) ∧
    (∀ q : Rat, (f.rows.getD j defaultRow).volume = some q →
      (rs.getD j defaultReplayRow).volume = ratTrunc q ∧
      (0 ≤ q → 0 ≤ (rs.getD j defaultReplayRow).volume)) := by
  obtain ⟨hlen, hpt⟩ := replayList_spec f.dtypes hr
  obtain ⟨hts, ho, hh, hl, hc, hv⟩ := replayRow_fields (hpt j hj)
  refine ⟨hlen, hts, ho, hh, hl, hc, ?_, ?_⟩
  · intro hn
    rw [hv, hn]
  · intro q hq
    rw [hv, hq]
    refine ⟨rfl, fun hq0 => ?_⟩
    unfold ratTrunc
    exact Int.tdiv_nonneg (Rat.num_nonneg.mpr hq0) (Int.natCast_nonneg _)

/-- C9, witness on a 3-row table whose middle row has a null volume: the
replay completes and yields 3 records with the null volume mapped to 0. -/
theorem replay_rows_elementwise_w :
    replay_rows replayDemoFrame = some replayDemoOut ∧
    replayDemoOut.length = replayDemoFrame.rows.length ∧
    (replayDemoOut.getD 1 defaultReplayRow).volume = 0 :=
  ⟨by decide,
   (replay_rows_elementwise replayDemoFrame replayDemoOut (by decide) 1 (by decide)).1,
   (replay_rows_elementwise replayDemoFrame replayDemoOut (by decide) 1
      (by decide)).2.2.2.2.2.2.1 (by decide)⟩

/-- C10, confirmed: a payload whose non-empty observation list has neither a
`datetime` nor a `time` field makes `parse_history_payload` raise `KeyError`
(from `df[ts_col]`), aborting normalization instead of emitting null-`ts`
rows. -/
theorem parse_missing_ts_field_raises :
    (([noTsCandle] : List Candle) ≠ [] ∧ hasField [noTsCandle] "datetime" = false ∧
      hasField [noTsCandle] "time" = false) ∧
    parse_history_payload noTsPayload = .error .keyError := ⟨by decide, rfl⟩
